import Mathlib

/-!
Verification of the path_abs crate core (src/lib.rs) against its
natural-language specification.

The code under verification is the `PathAbs` type of src/lib.rs:
an absolute (canonicalized) path wrapper built over the OS filesystem
collaborator.  Paths are modelled as Rust `PathBuf` values: a flag
saying whether the path is absolute plus the list of components, each
component an opaque byte sequence (paths need not be valid text).
The filesystem is the external collaborator of spec section 6, with
`canonicalize` and kind-of queries; its trusted properties are stated
as an explicit well-formedness predicate and a concrete model
filesystem witnesses that the predicate is satisfiable.
-/

/-- One path component as a raw byte sequence (a Rust `OsStr`);
bytes need not form valid text. -/
abbrev Bytes := List Nat

/-- Model of Rust `PathBuf`: whether the path has a root, plus its
components.  Equality is component-wise, as for `PathBuf`. -/
structure PathT where
  absolute : Bool
  components : List Bytes
deriving DecidableEq

/-- Kind of an existing filesystem entry, per spec section 6:
`{file, dir, other}`. -/
inductive FsKind where
  | file
  | dir
  | other
deriving DecidableEq

/-- Error taxonomy of spec section 7: not-found / canonicalization
failure, kind-mismatch on narrowing, generic io failure, and
decode failure from the serialization codec. -/
inductive FsError where
  | notFound
  | kindMismatch
  | ioFailure
  | decodeFailure
deriving DecidableEq

/-- The filesystem collaborator interface (spec section 6):
`canonicalize(path) -> path | error` and kind-of / existence
(`none` means the path does not exist). -/
structure Filesystem where
  canonicalize : PathT → Except FsError PathT
  kindOf : PathT → Option FsKind

/-- Model of `pub struct PathAbs(PathBuf)` (src/lib.rs line 130). -/
structure PathAbs where
  path : PathT
deriving DecidableEq

/-- Model of `pub struct PathDir(PathAbs)`: visible in src/lib.rs
line 176 where `parent_dir` builds `PathDir(PathAbs(...))` directly. -/
structure PathDir where
  abs : PathAbs
deriving DecidableEq

/-- Model of `pub struct PathFile(PathAbs)`, the file-specialized
refinement (spec section 4.2). -/
structure PathFile where
  abs : PathAbs
deriving DecidableEq

/-- Model of `PathAbs::new` (src/lib.rs lines 144-146):
`Ok(PathAbs(path.as_ref().canonicalize()?))` — canonicalize through
the filesystem collaborator, wrap on success, propagate the error
unchanged on failure. -/
def PathAbs.new (fs : Filesystem) (p : PathT) : Except FsError PathAbs :=
  (fs.canonicalize p).map PathAbs.mk

/-- Model of `PathAbs::mock` (src/lib.rs lines 208-210):
`PathAbs(fake_path.as_ref().to_path_buf())` — wrap the input path
unchanged, with no filesystem access and no error case. -/
def PathAbs.mock (p : PathT) : PathAbs :=
  PathAbs.mk p

/-- Model of Rust `Path::parent`: `None` when there is no last
component (the root path, or the empty relative path); otherwise the
path with the last component dropped. -/
def PathT.parent (p : PathT) : Option PathT :=
  match p.components with
  | [] => none
  | _ :: _ => some (PathT.mk p.absolute p.components.dropLast)

/-- A root path: absolute with no components (Unix `/`). -/
def PathT.isRoot (p : PathT) : Bool :=
  p.absolute && p.components.isEmpty

/-- Model of `PathAbs::parent_dir` (src/lib.rs lines 174-179):
match on `self.parent()`, wrapping the parent directly as
`PathDir(PathAbs(...))`.  The definition takes no filesystem
argument, mirroring that the code performs no filesystem call. -/
def PathAbs.parent_dir (self : PathAbs) : Option PathDir :=
  match self.path.parent with
  | some p => some (PathDir.mk (PathAbs.mk p))
  | none => none

/-- Modelled from the spec: `dir.rs` (the `PathDir` implementation,
including `PathDir::from_abs`) is not under src/.  Spec section 4.3:
`fromAbsolute(AbsolutePath) -> DirHandle | Error`: narrows; fails
with a kind-mismatch error when the entry is not a directory. -/
def PathDir.from_abs (fs : Filesystem) (a : PathAbs) : Except FsError PathDir :=
  if fs.kindOf a.path = some FsKind.dir then
    Except.ok (PathDir.mk a)
  else
    Except.error FsError.kindMismatch

/-- Modelled from the spec: `file.rs` (the `PathFile` implementation,
including `PathFile::from_abs`) is not under src/.  Spec section 4.2:
narrows; fails with a kind-mismatch error when the entry is not a
regular file. -/
def PathFile.from_abs (fs : Filesystem) (a : PathAbs) : Except FsError PathFile :=
  if fs.kindOf a.path = some FsKind.file then
    Except.ok (PathFile.mk a)
  else
    Except.error FsError.kindMismatch

/-- Model of `PathAbs::into_file` (src/lib.rs lines 149-151):
delegates to `PathFile::from_abs`. -/
def PathAbs.into_file (fs : Filesystem) (self : PathAbs) : Except FsError PathFile :=
  PathFile.from_abs fs self

/-- Model of `PathAbs::into_dir` (src/lib.rs lines 154-156):
delegates to `PathDir::from_abs`. -/
def PathAbs.into_dir (fs : Filesystem) (self : PathAbs) : Except FsError PathDir :=
  PathDir.from_abs fs self

/-! Derived comparison and hashing.  src/lib.rs line 126 derives
`Eq, Hash, PartialEq, PartialOrd, Ord` for the single-field struct
`PathAbs(PathBuf)`; the derived instances compare and hash the inner
path value.  We model a total order and a hash on `PathT`, and the
derived `PathAbs` operations as their lift to the single field. -/

/-- Three-way comparison of naturals. -/
def cmpNat (a b : Nat) : Ordering :=
  if a < b then Ordering.lt else if a = b then Ordering.eq else Ordering.gt

/-- Three-way comparison of booleans (false before true). -/
def cmpBool : Bool → Bool → Ordering
  | false, false => Ordering.eq
  | false, true => Ordering.lt
  | true, false => Ordering.gt
  | true, true => Ordering.eq

/-- Lexicographic comparison of lists from an element comparison. -/
def cmpListWith (cmp : α → α → Ordering) : List α → List α → Ordering
  | [], [] => Ordering.eq
  | [], _ :: _ => Ordering.lt
  | _ :: _, [] => Ordering.gt
  | x :: xs, y :: ys =>
    match cmp x y with
    | Ordering.eq => cmpListWith cmp xs ys
    | o => o

/-- Byte-sequence comparison. -/
def cmpBytes (a b : Bytes) : Ordering :=
  cmpListWith cmpNat a b

/-- Model of the `PathBuf` total order: lexicographic over the
root flag then the components. -/
def PathT.compare (p q : PathT) : Ordering :=
  match cmpBool p.absolute q.absolute with
  | Ordering.eq => cmpListWith cmpBytes p.components q.components
  | o => o

/-- Model hash of a path value. -/
def PathT.hash (p : PathT) : Nat :=
  (if p.absolute then 1 else 0) +
    p.components.foldl (fun h c => h * 31 + c.foldl (fun h2 b => h2 * 31 + b) 7) 11

/-- Derived `PartialEq` for `PathAbs`: compares the inner path. -/
def PathAbs.beq (a b : PathAbs) : Bool :=
  decide (a.path = b.path)

/-- Derived `Ord` for `PathAbs`: compares the inner path. -/
def PathAbs.compare (a b : PathAbs) : Ordering :=
  PathT.compare a.path b.path

/-- Derived `Hash` for `PathAbs`: hashes the inner path. -/
def PathAbs.hash (a : PathAbs) : Nat :=
  PathT.hash a.path

/-! The serialization codec (spec sections 4.5 and 6).  `ser.rs` is
not under src/, so the codec layer is modelled from the spec: the
text-encoding collaborator provides `encode` and `decode`, guaranteed
mutual inverses over the full byte space a native path can contain;
the `PathAbs` serialized form is the encoded path text, and decoding
a `PathAbs` wraps the decoded bytes without filesystem validation
(spec section 8: the round trip is the identity even for a mock value
used as a text fixture). -/

/-- The text-encoding collaborator interface (spec section 6):
`encode(raw-path-bytes) -> text`, `decode(text) -> raw-path-bytes
| error`. -/
structure Codec where
  encode : PathT → List Nat
  decode : List Nat → Except FsError PathT

/-- The collaborator guarantee of spec section 6: encode and decode
are mutual inverses over every representable path. -/
def Codec.Lossless (c : Codec) : Prop :=
  ∀ p, c.decode (c.encode p) = Except.ok p

/-- Modelled from the spec: `ser.rs` is not under src/.  Serializing
a `PathAbs` emits the encoded text of its path. -/
def PathAbs.serialize (c : Codec) (v : PathAbs) : List Nat :=
  c.encode v.path

/-- Modelled from the spec: `ser.rs` is not under src/.  Deserializing
a `PathAbs` decodes the text and wraps the resulting path bytes
without filesystem validation, so that the round trip is the identity
also for mock fixtures (spec section 8). -/
def PathAbs.deserialize (c : Codec) (s : List Nat) : Except FsError PathAbs :=
  (c.decode s).map PathAbs.mk

/-- One concrete lossless codec: a length-prefixed encoding of the
component byte sequences.  The exact escape grammar is the external
collaborator concern (spec section 9); this instance witnesses that
the `Codec.Lossless` interface is satisfiable over arbitrary bytes. -/
def encBytes (b : Bytes) : List Nat :=
  b.length :: b

/-- Concatenated length-prefixed encoding of a component list. -/
def encComponents : List Bytes → List Nat
  | [] => []
  | c :: cs => encBytes c ++ encComponents cs

/-- Decoder for `encComponents`: reads a known number of
length-prefixed chunks, requiring the input to be fully consumed. -/
def decComponents : Nat → List Nat → Option (List Bytes)
  | 0, [] => some []
  | 0, _ :: _ => none
  | _ + 1, [] => none
  | k + 1, n :: s =>
    if n ≤ s.length then
      (decComponents k (s.drop n)).map (fun cs => s.take n :: cs)
    else
      none

/-- The concrete codec: a flag byte for absoluteness, a component
count, then the length-prefixed components. -/
def exCodec : Codec :=
  Codec.mk
    (fun p => (if p.absolute then 1 else 0) :: p.components.length :: encComponents p.components)
    (fun s =>
      match s with
      | a :: k :: rest =>
        if a ≤ 1 then
          match decComponents k rest with
          | some cs => Except.ok (PathT.mk (a == 1) cs)
          | none => Except.error FsError.decodeFailure
        else
          Except.error FsError.decodeFailure
      | _ => Except.error FsError.decodeFailure)

/-! A concrete model filesystem, used to witness that the collaborator
assumptions are satisfiable and to evaluate the theorems on concrete
inputs.  It contains the root directory, a directory `/a` and a
regular file `/a/f`; the working directory for relative paths is the
root, so canonicalization maps a path to its absolutized form when
that form exists and fails with not-found otherwise. -/

/-- The root path `/`. -/
def rootP : PathT := PathT.mk true []

/-- The byte sequence of component `a`. -/
def compA : Bytes := [97]

/-- The byte sequence of component `f`. -/
def compF : Bytes := [102]

/-- The byte sequence of component `z` (present in no model entry). -/
def compZ : Bytes := [122]

/-- The byte sequence of component `w` (present in no model entry). -/
def compW : Bytes := [119]

/-- The directory `/a`. -/
def pA : PathT := PathT.mk true [compA]

/-- The file `/a/f`. -/
def pAF : PathT := PathT.mk true [compA, compF]

/-- Resolve a path against the working directory (the root): an
absolute path is unchanged, a relative one is rooted. -/
def absolutize (p : PathT) : PathT :=
  PathT.mk true p.components

/-- Kind table of the model filesystem. -/
def exKind (q : PathT) : Option FsKind :=
  if q = rootP then some FsKind.dir
  else if q = pA then some FsKind.dir
  else if q = pAF then some FsKind.file
  else none

/-- The model filesystem. -/
def exFs : Filesystem :=
  Filesystem.mk
    (fun p =>
      match exKind (absolutize p) with
      | some _ => Except.ok (absolutize p)
      | none => Except.error FsError.notFound)
    (fun p => exKind (absolutize p))

/-- Trusted properties of the filesystem collaborator assumed by the
spec (sections 4.1, 6 and 8): canonical outputs are absolute and
exist; non-existent paths canonicalize to not-found; existing paths
canonicalize successfully; canonicalization is idempotent on its
outputs; and the parent of a canonical path is itself canonical and
is an existing directory. -/
structure Filesystem.WF (fs : Filesystem) : Prop where
  canon_absolute : ∀ p q, fs.canonicalize p = Except.ok q → q.absolute = true
  canon_kind_some : ∀ p q, fs.canonicalize p = Except.ok q → (fs.kindOf q).isSome
  canon_not_found : ∀ p, fs.kindOf p = none → fs.canonicalize p = Except.error FsError.notFound
  canon_of_kind_some : ∀ p, (fs.kindOf p).isSome → ∃ q, fs.canonicalize p = Except.ok q
  canon_idem : ∀ p q, fs.canonicalize p = Except.ok q → fs.canonicalize q = Except.ok q
  canon_parent : ∀ p q pt, fs.canonicalize p = Except.ok q → q.parent = some pt →
    fs.canonicalize pt = Except.ok pt
  parent_is_dir : ∀ p q pt, fs.canonicalize p = Except.ok q → q.parent = some pt →
    fs.kindOf pt = some FsKind.dir

/-! Helper lemmas. -/

lemma absolutize_fix {q : PathT} (h : q.absolute = true) : absolutize q = q := by
  obtain ⟨ab, cs⟩ := q
  cases ab
  · simp at h
  · rfl

lemma exFs_canonicalize_ok {p q : PathT} (h : exFs.canonicalize p = Except.ok q) :
    q = absolutize p ∧ (exKind (absolutize p)).isSome := by
  simp only [exFs] at h
  cases hk : exKind (absolutize p) with
  | none => rw [hk] at h; exact absurd h (by simp)
  | some k =>
    rw [hk] at h
    refine ⟨?_, rfl⟩
    exact (Except.ok.injEq _ _).mp h.symm

lemma exKind_some {q : PathT} {k : FsKind} (h : exKind q = some k) :
    (q = rootP ∧ k = FsKind.dir) ∨ (q = pA ∧ k = FsKind.dir) ∨
      (q = pAF ∧ k = FsKind.file) := by
  unfold exKind at h
  split_ifs at h with h1 h2 h3 <;> simp_all

lemma exFs_wf : exFs.WF := by
  constructor
  · intro p q h
    obtain ⟨hq, _⟩ := exFs_canonicalize_ok h
    rw [hq]
    rfl
  · intro p q h
    obtain ⟨hq, hk⟩ := exFs_canonicalize_ok h
    rw [hq]
    show (exKind (absolutize (absolutize p))).isSome
    exact hk
  · intro p h
    simp only [exFs] at h ⊢
    rw [h]
  · intro p h
    simp only [exFs] at h ⊢
    cases hk : exKind (absolutize p) with
    | none => rw [hk] at h; simp at h
    | some k => exact ⟨absolutize p, rfl⟩
  · intro p q h
    obtain ⟨hq, hk⟩ := exFs_canonicalize_ok h
    simp only [exFs]
    have : absolutize q = q := by rw [hq]; rfl
    rw [this]
    cases hsome : exKind q with
    | none => rw [hq] at hsome; rw [hsome] at hk; simp at hk
    | some k => rfl
  · intro p q pt h hpt
    obtain ⟨hq, hk⟩ := exFs_canonicalize_ok h
    rw [← hq] at hk
    cases hsome : exKind q with
    | none => rw [hsome] at hk; simp at hk
    | some k =>
      rcases exKind_some hsome with ⟨h1, _⟩ | ⟨h1, _⟩ | ⟨h1, _⟩ <;> rw [h1] at hpt
      · exact absurd hpt (by simp [PathT.parent, rootP])
      · have : pt = rootP := by
          simpa [PathT.parent, pA, rootP, compA] using hpt.symm
        rw [this]
        rfl
      · have : pt = pA := by
          simpa [PathT.parent, pAF, pA, compA, compF] using hpt.symm
        rw [this]
        rfl
  · intro p q pt h hpt
    obtain ⟨hq, hk⟩ := exFs_canonicalize_ok h
    rw [← hq] at hk
    cases hsome : exKind q with
    | none => rw [hsome] at hk; simp at hk
    | some k =>
      rcases exKind_some hsome with ⟨h1, _⟩ | ⟨h1, _⟩ | ⟨h1, _⟩ <;> rw [h1] at hpt
      · exact absurd hpt (by simp [PathT.parent, rootP])
      · have : pt = rootP := by
          simpa [PathT.parent, pA, rootP, compA] using hpt.symm
        rw [this]
        rfl
      · have : pt = pA := by
          simpa [PathT.parent, pAF, pA, compA, compF] using hpt.symm
        rw [this]
        rfl

lemma canonicalize_of_new_ok {fs : Filesystem} {p : PathT} {v : PathAbs}
    (h : PathAbs.new fs p = Except.ok v) : fs.canonicalize p = Except.ok v.path := by
  unfold PathAbs.new at h
  cases hc : fs.canonicalize p with
  | error e => rw [hc] at h; simp [Except.map] at h
  | ok q =>
    rw [hc] at h
    simp only [Except.map] at h
    have : PathAbs.mk q = v := (Except.ok.injEq _ _).mp h
    rw [← this]

lemma cmpNat_eq_iff {a b : Nat} : cmpNat a b = Ordering.eq ↔ a = b := by
  unfold cmpNat
  split_ifs with h1 h2 <;> simp_all <;> omega

lemma cmpBool_eq_iff {a b : Bool} : cmpBool a b = Ordering.eq ↔ a = b := by
  cases a <;> cases b <;> simp [cmpBool]

lemma cmpListWith_eq_iff {α : Type} {cmp : α → α → Ordering}
    (hcmp : ∀ x y, cmp x y = Ordering.eq ↔ x = y) :
    ∀ xs ys : List α, cmpListWith cmp xs ys = Ordering.eq ↔ xs = ys := by
  intro xs
  induction xs with
  | nil => intro ys; cases ys <;> simp [cmpListWith]
  | cons x xs ih =>
    intro ys
    cases ys with
    | nil => simp [cmpListWith]
    | cons y ys =>
      simp only [cmpListWith]
      cases hxy : cmp x y with
      | eq =>
        have hx : x = y := (hcmp x y).mp hxy
        simp [hx, ih ys]
      | lt =>
        have hne : x ≠ y := by
          intro he
          rw [he, (hcmp y y).mpr rfl] at hxy
          exact Ordering.noConfusion hxy
        simp [hne]
      | gt =>
        have hne : x ≠ y := by
          intro he
          rw [he, (hcmp y y).mpr rfl] at hxy
          exact Ordering.noConfusion hxy
        simp [hne]

lemma cmpBytes_eq_iff {a b : Bytes} : cmpBytes a b = Ordering.eq ↔ a = b :=
  cmpListWith_eq_iff (fun _ _ => cmpNat_eq_iff) a b

lemma PathT.compare_eq_iff {p q : PathT} : PathT.compare p q = Ordering.eq ↔ p = q := by
  unfold PathT.compare
  cases hab : cmpBool p.absolute q.absolute with
  | eq =>
    have h1 : p.absolute = q.absolute := cmpBool_eq_iff.mp hab
    rw [cmpListWith_eq_iff (fun _ _ => cmpBytes_eq_iff)]
    obtain ⟨a1, c1⟩ := p
    obtain ⟨a2, c2⟩ := q
    simp_all
  | lt =>
    have hne : p ≠ q := by
      intro he
      rw [he, cmpBool_eq_iff.mpr rfl] at hab
      exact Ordering.noConfusion hab
    simp [hne]
  | gt =>
    have hne : p ≠ q := by
      intro he
      rw [he, cmpBool_eq_iff.mpr rfl] at hab
      exact Ordering.noConfusion hab
    simp [hne]

lemma decComponents_enc (cs : List Bytes) :
    decComponents cs.length (encComponents cs) = some cs := by
  induction cs with
  | nil => rfl
  | cons c cs ih =>
    have hle : c.length ≤ (c ++ encComponents cs).length := by
      simp [List.length_append]
    show decComponents (cs.length + 1) (c.length :: (c ++ encComponents cs)) = some (c :: cs)
    simp only [decComponents, if_pos hle, List.drop_left, List.take_left, ih, Option.map]

lemma exCodec_lossless : exCodec.Lossless := by
  intro p
  obtain ⟨ab, cs⟩ := p
  cases ab <;> simp [exCodec, decComponents_enc]

/-! Claim theorems. -/

/-- Claim C1: for every input path p, PathAbs::new returns Ok exactly
when the filesystem collaborator canonicalize(p) succeeds, and the Ok
value wraps precisely the canonicalized path, which is absolute and
existed at call time; on failure the same filesystem error is
returned unchanged, so a non-existent p fails with not-found. -/
theorem new_matches_canonicalize (fs : Filesystem) (hwf : fs.WF) (p : PathT) :
    (∀ q, PathAbs.new fs p = Except.ok (PathAbs.mk q) ↔
      fs.canonicalize p = Except.ok q) ∧
    (∀ e, PathAbs.new fs p = Except.error e ↔
      fs.canonicalize p = Except.error e) ∧
    (∀ v, PathAbs.new fs p = Except.ok v →
      v.path.absolute = true ∧ (fs.kindOf v.path).isSome) ∧
    (fs.kindOf p = none → PathAbs.new fs p = Except.error FsError.notFound) := by
  refine ⟨?_, ?_, ?_, ?_⟩
  · intro q
    unfold PathAbs.new
    cases hc : fs.canonicalize p <;> simp [Except.map]
  · intro e
    unfold PathAbs.new
    cases hc : fs.canonicalize p <;> simp [Except.map]
  · intro v hv
    have hc := canonicalize_of_new_ok hv
    exact ⟨hwf.canon_absolute p v.path hc, hwf.canon_kind_some p v.path hc⟩
  · intro hnone
    unfold PathAbs.new
    rw [hwf.canon_not_found p hnone]
    rfl

/-- Witness for claim C1 on the concrete model filesystem: the
existing file /a/f canonicalizes to itself and a missing path fails
with not-found. -/
theorem new_matches_canonicalize_witness :
    PathAbs.new exFs pAF = Except.ok (PathAbs.mk pAF) ∧
    PathAbs.new exFs (PathT.mk true [compZ]) = Except.error FsError.notFound :=
  ⟨((new_matches_canonicalize exFs exFs_wf pAF).1 pAF).mpr rfl,
   (new_matches_canonicalize exFs exFs_wf (PathT.mk true [compZ])).2.2.2 rfl⟩

/-- Claim C2, counterexample: the claim says mock(x) never equals a
successful new(x) value even when the textual content is identical,
but equality is the derived structural equality on the stored path,
so at the root path (whose canonical form is itself) the two values
are equal. -/
theorem mock_ne_new_counterexample :
    PathAbs.new exFs rootP = Except.ok (PathAbs.mock rootP) := rfl

/-- Claim C2 as amended: equality being structural over the stored
path, a successful new(x) value equals mock(x) exactly when
canonicalization leaves x unchanged; whenever the canonical form
differs from x (for example any relative x), mock(x) is not equal to
the new(x) value. -/
theorem mock_eq_new_iff (fs : Filesystem) (x : PathT) (v : PathAbs)
    (h : PathAbs.new fs x = Except.ok v) :
    PathAbs.mock x = v ↔ fs.canonicalize x = Except.ok x := by
  have hc := canonicalize_of_new_ok h
  constructor
  · intro he
    rw [← he] at hc
    exact hc
  · intro hx
    rw [hc] at hx
    have : v.path = x := (Except.ok.injEq _ _).mp hx
    rw [← this]
    rfl

/-- Witness for the amended claim C2 at the relative path a: its
canonical form is /a, so the mock value differs from the new value
and indeed canonicalization does not fix the input. -/
theorem mock_eq_new_iff_witness :
    PathAbs.mock (PathT.mk false [compA]) = PathAbs.mk pA ↔
      exFs.canonicalize (PathT.mk false [compA]) =
        Except.ok (PathT.mk false [compA]) :=
  mock_eq_new_iff exFs (PathT.mk false [compA]) (PathAbs.mk pA) rfl

/-- Claim C3: for a value built by new whose path is not a root,
parent_dir needs no filesystem argument and yields exactly the
DirHandle that AbsolutePath::new(parent_text).into_dir() yields. -/
theorem parent_dir_matches_new_into_dir (fs : Filesystem) (hwf : fs.WF)
    (p : PathT) (v : PathAbs) (hv : PathAbs.new fs p = Except.ok v)
    (pt : PathT) (hpt : v.path.parent = some pt) :
    v.parent_dir = some (PathDir.mk (PathAbs.mk pt)) ∧
    (PathAbs.new fs pt).bind (fun a => PathAbs.into_dir fs a) =
      Except.ok (PathDir.mk (PathAbs.mk pt)) := by
  have hc := canonicalize_of_new_ok hv
  have hcp := hwf.canon_parent p v.path pt hc hpt
  have hdir := hwf.parent_is_dir p v.path pt hc hpt
  constructor
  · unfold PathAbs.parent_dir
    rw [hpt]
  · have hnew : PathAbs.new fs pt = Except.ok (PathAbs.mk pt) := by
      unfold PathAbs.new
      rw [hcp]
      rfl
    rw [hnew]
    show PathAbs.into_dir fs (PathAbs.mk pt) = _
    unfold PathAbs.into_dir PathDir.from_abs
    simp [hdir]

/-- Witness for claim C3 at the file /a/f of the model filesystem:
its parent /a is a directory and both routes agree. -/
theorem parent_dir_matches_new_into_dir_witness :
    (PathAbs.mk pAF).parent_dir = some (PathDir.mk (PathAbs.mk pA)) ∧
    (PathAbs.new exFs pA).bind (fun a => PathAbs.into_dir exFs a) =
      Except.ok (PathDir.mk (PathAbs.mk pA)) :=
  parent_dir_matches_new_into_dir exFs exFs_wf pAF (PathAbs.mk pAF) rfl pA rfl

/-- Claim C4, counterexample: the claim says parent_dir returns none
exactly for a root path, but the mock of the empty relative path also
has no parent while not being a root. -/
theorem parent_dir_none_counterexample :
    (PathAbs.mock (PathT.mk false [])).parent_dir = none ∧
    (PathAbs.mock (PathT.mk false [])).path.isRoot = false :=
  ⟨rfl, rfl⟩

/-- Claim C4 as amended: parent_dir returns none exactly when the
underlying path has no components — the root path when absolute, or
the empty relative path, which is reachable only through mock; in
every other case it returns some, and the operation takes no
filesystem argument at all. -/
theorem parent_dir_none_iff (v : PathAbs) :
    (v.parent_dir = none ↔ v.path.components = []) ∧
    (v.path.absolute = true →
      (v.parent_dir = none ↔ v.path.isRoot = true)) := by
  obtain ⟨⟨ab, cs⟩⟩ := v
  cases cs <;> cases ab <;>
    simp [PathAbs.parent_dir, PathT.parent, PathT.isRoot]

/-- Witness for the amended claim C4 at the mock of /a/f. -/
theorem parent_dir_none_iff_witness :
    ((PathAbs.mock pAF).parent_dir = none ↔ pAF.components = []) ∧
    (pAF.absolute = true →
      ((PathAbs.mock pAF).parent_dir = none ↔ pAF.isRoot = true)) :=
  parent_dir_none_iff (PathAbs.mock pAF)

/-- Claim C5: for every path existing at call time, new succeeds, and
canonicalization is idempotent on the result: applying new to the
returned value's underlying path yields the same result as new on the
original input. -/
theorem new_idempotent (fs : Filesystem) (hwf : fs.WF) (p : PathT)
    (hex : (fs.kindOf p).isSome) :
    (∃ v, PathAbs.new fs p = Except.ok v) ∧
    (∀ v, PathAbs.new fs p = Except.ok v →
      PathAbs.new fs v.path = PathAbs.new fs p) := by
  obtain ⟨q, hq⟩ := hwf.canon_of_kind_some p hex
  constructor
  · refine ⟨PathAbs.mk q, ?_⟩
    unfold PathAbs.new
    rw [hq]
    rfl
  · intro v hv
    have hc := canonicalize_of_new_ok hv
    have hidem := hwf.canon_idem p v.path hc
    unfold PathAbs.new
    rw [hc, hidem]

/-- Witness for claim C5 at the directory /a of the model
filesystem. -/
theorem new_idempotent_witness :
    (∃ v, PathAbs.new exFs pA = Except.ok v) ∧
    (∀ v, PathAbs.new exFs pA = Except.ok v →
      PathAbs.new exFs v.path = PathAbs.new exFs pA) :=
  new_idempotent exFs exFs_wf pA rfl

/-- Claim C6: the derived equality, ordering and hashing of PathAbs
are structural over the stored path value: two values are equal
exactly when their underlying paths are identical, the total order
compares underlying paths (and deems values equal exactly when they
are equal), and equal values hash equally. -/
theorem derived_traits_structural (a b : PathAbs) :
    (PathAbs.beq a b = true ↔ a.path = b.path) ∧
    (a = b ↔ a.path = b.path) ∧
    (PathAbs.compare a b = PathT.compare a.path b.path) ∧
    (PathAbs.compare a b = Ordering.eq ↔ a = b) ∧
    (a = b → PathAbs.hash a = PathAbs.hash b) := by
  have hpath : a = b ↔ a.path = b.path := by
    constructor
    · intro h
      rw [h]
    · intro h
      obtain ⟨pa⟩ := a
      obtain ⟨pb⟩ := b
      simpa using h
  refine ⟨by simp [PathAbs.beq], hpath, rfl, ?_, fun h => by rw [h]⟩
  unfold PathAbs.compare
  rw [PathT.compare_eq_iff]
  exact hpath.symm

/-- Witness for claim C6 at two concrete distinct values. -/
theorem derived_traits_structural_witness :
    (PathAbs.beq (PathAbs.mock rootP) (PathAbs.mock pA) = true ↔
      (PathAbs.mock rootP).path = (PathAbs.mock pA).path) ∧
    (PathAbs.mock rootP = PathAbs.mock pA ↔
      (PathAbs.mock rootP).path = (PathAbs.mock pA).path) ∧
    (PathAbs.compare (PathAbs.mock rootP) (PathAbs.mock pA) =
      PathT.compare (PathAbs.mock rootP).path (PathAbs.mock pA).path) ∧
    (PathAbs.compare (PathAbs.mock rootP) (PathAbs.mock pA) = Ordering.eq ↔
      PathAbs.mock rootP = PathAbs.mock pA) ∧
    (PathAbs.mock rootP = PathAbs.mock pA →
      PathAbs.hash (PathAbs.mock rootP) = PathAbs.hash (PathAbs.mock pA)) :=
  derived_traits_structural (PathAbs.mock rootP) (PathAbs.mock pA)

/-- Claim C7: narrowing is kind-checked both ways: into_file fails
with a kind-mismatch error when the canonical path resolves to a
directory, into_dir fails with a kind-mismatch error when it resolves
to a regular file, and each narrowing succeeds only on the matching
kind. -/
theorem narrowing_kind_checked (fs : Filesystem) (v : PathAbs) :
    (fs.kindOf v.path = some FsKind.dir →
      PathAbs.into_file fs v = Except.error FsError.kindMismatch) ∧
    (fs.kindOf v.path = some FsKind.file →
      PathAbs.into_dir fs v = Except.error FsError.kindMismatch) ∧
    (∀ f, PathAbs.into_file fs v = Except.ok f →
      fs.kindOf v.path = some FsKind.file) ∧
    (∀ d, PathAbs.into_dir fs v = Except.ok d →
      fs.kindOf v.path = some FsKind.dir) := by
  unfold PathAbs.into_file PathAbs.into_dir PathFile.from_abs PathDir.from_abs
  refine ⟨?_, ?_, ?_, ?_⟩
  · intro h
    rw [h]
    rfl
  · intro h
    rw [h]
    rfl
  · intro f hf
    by_contra hne
    rw [if_neg hne] at hf
    exact Except.noConfusion hf
  · intro d hd
    by_contra hne
    rw [if_neg hne] at hd
    exact Except.noConfusion hd

/-- Witness for claim C7 on the model filesystem: narrowing the
directory /a to a file fails and narrowing the file /a/f to a
directory fails, both with the kind-mismatch error. -/
theorem narrowing_kind_checked_witness :
    PathAbs.into_file exFs (PathAbs.mk pA) =
      Except.error FsError.kindMismatch ∧
    PathAbs.into_dir exFs (PathAbs.mk pAF) =
      Except.error FsError.kindMismatch :=
  ⟨(narrowing_kind_checked exFs (PathAbs.mk pA)).1 rfl,
   (narrowing_kind_checked exFs (PathAbs.mk pAF)).2.1 rfl⟩

/-- Claim C8: the serialization round trip is the identity for every
constructed path value, including mock fixtures, for any codec whose
encode and decode are mutual inverses over arbitrary path bytes. -/
theorem serialization_roundtrip (c : Codec) (hc : c.Lossless) (v : PathAbs) :
    PathAbs.deserialize c (PathAbs.serialize c v) = Except.ok v := by
  unfold PathAbs.deserialize PathAbs.serialize
  rw [hc v.path]
  rfl

/-- Witness for claim C8 with the concrete length-prefixed codec at a
mock value whose single component holds bytes that are not valid
text. -/
theorem serialization_roundtrip_witness :
    PathAbs.deserialize exCodec
        (PathAbs.serialize exCodec (PathAbs.mock (PathT.mk false [[255, 47, 0]]))) =
      Except.ok (PathAbs.mock (PathT.mk false [[255, 47, 0]])) :=
  serialization_roundtrip exCodec exCodec_lossless
    (PathAbs.mock (PathT.mk false [[255, 47, 0]]))

/-- Claim C9: parent_dir performs no existence, canonicality or kind
check: the mock of the non-existent relative path z/w yields some
DirHandle whose underlying path does not exist on the model
filesystem (in particular it is not a directory), so the DirHandle
invariant is not established by this operation. -/
theorem mock_parent_dir_unchecked :
    (PathAbs.mock (PathT.mk false [compZ, compW])).parent_dir =
      some (PathDir.mk (PathAbs.mk (PathT.mk false [compZ]))) ∧
    exFs.kindOf (PathT.mk false [compZ]) = none ∧
    exFs.kindOf (PathT.mk false [compZ]) ≠ some FsKind.dir := by
  refine ⟨rfl, rfl, ?_⟩
  intro h
  exact Option.noConfusion h

/-- Claim C10: mock is total and identity-preserving: it has no error
case, takes no filesystem argument, stores its input path unchanged,
and applies no normalization, so distinct inputs stay distinct. -/
theorem mock_total_identity :
    (∀ p : PathT, (PathAbs.mock p).path = p) ∧
    (∀ p q : PathT, PathAbs.mock p = PathAbs.mock q → p = q) :=
  ⟨fun _ => rfl, fun _ _ h => congrArg PathAbs.path h⟩

/-- Witness for claim C10 at the concrete path /a/f. -/
theorem mock_total_identity_witness :
    (PathAbs.mock pAF).path = pAF ∧ pAF = pAF :=
  ⟨mock_total_identity.1 pAF, mock_total_identity.2 pAF pAF rfl⟩
